import Mathlib

/-!
Shallow embedding of the NFL player red-zone usage / TD share repository
(`src/app.py`, `src/main.py`) and verification of the frozen claims.

Numbers carried as floats in the source (rates, shares, odds lines) are
modelled as rationals; Python `round(x, d)` (round half to even on the
decimal scale) is modelled by `roundTo d`.  Pandas null entries are
modelled with `Option`; a pandas boolean comparison against a null is
false, which the `Option`-valued predicates below reproduce.
-/

namespace NflTd

/-! ### Generic helpers -/

/-- Duplicate removal keeping first occurrences, tracking already-seen
elements in an accumulator (mirrors iterating over `Series.unique()`). -/
def uniqAux {α : Type} [DecidableEq α] : List α → List α → List α
  | _, [] => []
  | seen, x :: xs =>
    if x ∈ seen then uniqAux seen xs else x :: uniqAux (x :: seen) xs

/-- Unique values of a list in first-appearance order. -/
def uniq {α : Type} [DecidableEq α] (l : List α) : List α := uniqAux [] l

theorem mem_uniqAux {α : Type} [DecidableEq α] (l : List α) :
    ∀ (seen : List α) (a : α), a ∈ uniqAux seen l ↔ a ∈ l ∧ a ∉ seen := by
  induction l with
  | nil => intro seen a; simp [uniqAux]
  | cons x xs ih =>
    intro seen a
    by_cases hx : x ∈ seen
    · rw [uniqAux, if_pos hx, ih]
      constructor
      · rintro ⟨h1, h2⟩
        exact ⟨List.mem_cons_of_mem _ h1, h2⟩
      · rintro ⟨h1, h2⟩
        rcases List.mem_cons.mp h1 with rfl | h1
        · exact absurd hx h2
        · exact ⟨h1, h2⟩
    · rw [uniqAux, if_neg hx]
      constructor
      · intro h
        rcases List.mem_cons.mp h with rfl | h
        · exact ⟨List.mem_cons_self _ _, hx⟩
        · have := (ih _ a).mp h
          refine ⟨List.mem_cons_of_mem _ this.1, fun hs => this.2 ?_⟩
          exact List.mem_cons_of_mem _ hs
      · rintro ⟨h1, h2⟩
        rcases List.mem_cons.mp h1 with rfl | h1
        · exact List.mem_cons_self _ _
        · by_cases hax : a = x
          · subst hax; exact List.mem_cons_self _ _
          · refine List.mem_cons_of_mem _ ((ih _ a).mpr ⟨h1, ?_⟩)
            intro hs
            rcases List.mem_cons.mp hs with h | h
            · exact hax h
            · exact h2 h

theorem mem_uniq {α : Type} [DecidableEq α] (l : List α) (a : α) :
    a ∈ uniq l ↔ a ∈ l := by
  rw [uniq, mem_uniqAux]
  simp

/-- Python dict accumulation `d[k] = d.get-style + v`: bump an existing
key or append a fresh entry. -/
def addTo (m : List (String × ℚ)) (k : String) (v : ℚ) : List (String × ℚ) :=
  if m.any (fun e => decide (e.1 = k)) then
    m.map (fun e => if e.1 = k then (e.1, e.2 + v) else e)
  else
    m ++ [(k, v)]

theorem addTo_nonneg (m : List (String × ℚ)) (k : String) (v : ℚ)
    (hm : ∀ e ∈ m, 0 ≤ e.2) (hv : 0 ≤ v) :
    ∀ e ∈ addTo m k v, 0 ≤ e.2 := by
  intro e he
  rw [addTo] at he
  by_cases h : m.any (fun e => decide (e.1 = k))
  · rw [if_pos h] at he
    rcases List.mem_map.mp he with ⟨e', he', rfl⟩
    by_cases hk : e'.1 = k
    · simpa [hk] using add_nonneg (hm e' he') hv
    · simpa [hk] using hm e' he'
  · rw [if_neg h] at he
    rcases List.mem_append.mp he with h1 | h1
    · exact hm e h1
    · simp only [List.mem_singleton] at h1
      subst h1
      exact hv

/-- Round half to even at integer precision (the rounding used by the
source runtime's `round`). -/
def roundHalfEven (q : ℚ) : ℤ :=
  let n := ⌊q⌋
  let f := q - (n : ℚ)
  if f < 1 / 2 then n
  else if 1 / 2 < f then n + 1
  else if n % 2 = 0 then n else n + 1

/-- Round to `d` decimal places, half to even (the source's `round(x, d)`). -/
def roundTo (d : ℕ) (q : ℚ) : ℚ :=
  ((roundHalfEven (q * 10 ^ d) : ℚ)) / 10 ^ d

theorem roundHalfEven_nonneg (q : ℚ) (h : 0 ≤ q) : 0 ≤ roundHalfEven q := by
  have hn : (0 : ℤ) ≤ ⌊q⌋ := Int.floor_nonneg.mpr h
  rw [roundHalfEven]
  split
  · exact hn
  · split
    · omega
    · split
      · exact hn
      · omega

theorem roundTo_nonneg (d : ℕ) (q : ℚ) (h : 0 ≤ q) : 0 ≤ roundTo d q := by
  rw [roundTo]
  apply div_nonneg
  · exact_mod_cast roundHalfEven_nonneg _ (mul_nonneg h (by positivity))
  · positivity

/-! ### Data model: one play-by-play row (`src/app.py`).

Fields keep the pandas column names used by the source.  String-valued
and id-valued columns are `Option String` (None for pandas null);
`yardline_100` and `fixed_drive` are nullable numerics; the 0/1 flag
columns `rush`, `pass`, `two_point_attempt`, `touchdown` are booleans
(`true` iff the column equals 1, so a null flag behaves as 0). -/

structure Play where
  posteam : Option String
  yardline_100 : Option ℚ
  rush : Bool
  pass : Bool
  two_point_attempt : Bool
  touchdown : Bool
  game_id : Option String
  fixed_drive : Option ℚ
  rusher_player_id : Option String
  rusher_player_name : Option String
  receiver_player_id : Option String
  receiver_player_name : Option String
deriving DecidableEq

/-- Pandas `yardline_100 <= 20`: false on a null entry. -/
def leq20 : Option ℚ → Bool
  | some y => decide (y ≤ 20)
  | none => false

/-- Row predicate of the red-zone mask in `get_player_rz_usage_share`:
`posteam == team`, `yardline_100 <= 20`, `rush == 1 or pass == 1`,
`two_point_attempt != 1`. -/
def rzQualifies (team : String) (p : Play) : Bool :=
  decide (p.posteam = some team) && leq20 p.yardline_100 &&
    (p.rush || p.pass) && !p.two_point_attempt

/-- The `rz_data` frame of `get_player_rz_usage_share`. -/
def rzFilter (team : String) (plays : List Play) : List Play :=
  plays.filter (rzQualifies team)

/-- The 2+-plays-per-drive filter of `get_player_rz_usage_share`: iterate
the non-null `game_id` values in appearance order, then the non-null
`fixed_drive` values within the game, keep drive groups with at least two
plays, and concatenate the survivors. -/
def rzConcat (rz : List Play) : List Play :=
  (uniq (rz.filterMap (fun p => p.game_id))).flatMap (fun g =>
    let gameData := rz.filter (fun p => decide (p.game_id = some g))
    (uniq (gameData.filterMap (fun p => p.fixed_drive))).flatMap (fun d =>
      let drivePlays := gameData.filter (fun p => decide (p.fixed_drive = some d))
      if 2 ≤ drivePlays.length then drivePlays else []))

/-- The `rz_filtered` working play set. -/
def rzFiltered (team : String) (plays : List Play) : List Play :=
  rzConcat (rzFilter team plays)

/-- One accumulation pass of the share calculators: per distinct non-null
player id in `data`, divide its row count by `total`, resolve the id to
the name on its first row in `data`, and (when that name is non-null)
bump the name-keyed dictionary by the share. -/
def accumShares (idF nameF : Play → Option String) (data : List Play)
    (total : ℕ) (acc : List (String × ℚ)) : List (String × ℚ) :=
  (uniq (data.filterMap idF)).foldl (fun m pid =>
    let rows := data.filter (fun p => decide (idF p = some pid))
    let share : ℚ := (rows.length : ℚ) / (total : ℚ)
    match rows.head? with
    | some p0 =>
      match nameF p0 with
      | some nm => addTo m nm share
      | none => m
    | none => m) acc

/-- `get_player_rz_usage_share` of `src/app.py` (per team, given the
play-by-play rows): red-zone mask, 2+-plays drive filter, then rush and
receiving share accumulation over the filtered set. -/
def get_player_rz_usage_share (team : String) (plays : List Play) :
    List (String × ℚ) :=
  let rz := rzFilter team plays
  if rz.isEmpty then []
  else
    let rzF := rzConcat rz
    if rzF.isEmpty then []
    else
      let total := rzF.length
      let m1 := accumShares (fun p => p.rusher_player_id)
        (fun p => p.rusher_player_name) (rzF.filter (fun p => p.rush)) total []
      accumShares (fun p => p.receiver_player_id)
        (fun p => p.receiver_player_name) (rzF.filter (fun p => p.pass)) total m1

/-- The `td_data` frame of `get_player_td_share`: the team's plays with
`touchdown == 1`, with no yardage or drive restriction. -/
def tdData (team : String) (plays : List Play) : List Play :=
  plays.filter (fun p => decide (p.posteam = some team) && p.touchdown)

/-- `get_player_td_share` of `src/app.py`: full-season touchdown plays of
the team, rush and receiving share accumulation with the touchdown count
as denominator. -/
def get_player_td_share (team : String) (plays : List Play) :
    List (String × ℚ) :=
  let td := tdData team plays
  if td.isEmpty then []
  else
    let total := td.length
    let m1 := accumShares (fun p => p.rusher_player_id)
      (fun p => p.rusher_player_name) (td.filter (fun p => p.rush)) total []
    accumShares (fun p => p.receiver_player_id)
      (fun p => p.receiver_player_name) (td.filter (fun p => p.pass)) total m1

/-! ### Supporting lemmas for the share calculators -/

theorem filter_filter_play (f g : Play → Bool) (l : List Play) :
    (l.filter f).filter g = l.filter (fun q => f q && g q) := by
  rw [List.filter_filter]
  exact List.filter_congr (fun a _ => Bool.and_comm _ _)

/-- Flat characterization of the 2+-plays drive concatenation: a play
survives iff it sits in a non-null (game, drive) group that holds at
least two of the qualifying plays. -/
theorem mem_rzConcat (rz : List Play) (p : Play) :
    p ∈ rzConcat rz ↔
      p ∈ rz ∧ ∃ g d, p.game_id = some g ∧ p.fixed_drive = some d ∧
        2 ≤ (rz.filter (fun q =>
              decide (q.game_id = some g) && decide (q.fixed_drive = some d))).length := by
  constructor
  · intro hp
    simp only [rzConcat, List.mem_flatMap] at hp
    obtain ⟨g, hg, d, hd, hp⟩ := hp
    rw [filter_filter_play] at hp
    split at hp
    case isTrue hlen =>
      have h1 := List.mem_filter.mp hp
      have h2 : p.game_id = some g ∧ p.fixed_drive = some d := by
        have := h1.2
        simp only [Bool.and_eq_true, decide_eq_true_eq] at this
        exact this
      exact ⟨h1.1, g, d, h2.1, h2.2, hlen⟩
    case isFalse => simp at hp
  · rintro ⟨hp, g, d, hgid, hdid, hlen⟩
    simp only [rzConcat, List.mem_flatMap]
    refine ⟨g, ?_, d, ?_, ?_⟩
    · rw [mem_uniq, List.mem_filterMap]
      exact ⟨p, hp, hgid⟩
    · rw [mem_uniq, List.mem_filterMap]
      refine ⟨p, List.mem_filter.mpr ⟨hp, by simp [hgid]⟩, hdid⟩
    · rw [filter_filter_play, if_pos hlen]
      exact List.mem_filter.mpr ⟨hp, by simp [hgid, hdid]⟩

theorem rzQualifies_iff (team : String) (q : Play) :
    rzQualifies team q = true ↔
      q.posteam = some team ∧ (∃ y, q.yardline_100 = some y ∧ y ≤ 20) ∧
      (q.rush = true ∨ q.pass = true) ∧ q.two_point_attempt = false := by
  rw [rzQualifies]
  cases hy : q.yardline_100 with
  | none => simp [leq20, hy]
  | some y => simp [leq20, hy, and_assoc]

theorem foldl_preserve {α β : Type} (P : β → Prop) (f : β → α → β)
    (hf : ∀ b a, P b → P (f b a)) (l : List α) (b : β) (hb : P b) :
    P (l.foldl f b) := by
  induction l generalizing b with
  | nil => exact hb
  | cons x xs ih => exact ih _ (hf _ _ hb)

theorem accumShares_nonneg (idF nameF : Play → Option String)
    (data : List Play) (total : ℕ) (acc : List (String × ℚ))
    (hacc : ∀ e ∈ acc, 0 ≤ e.2) :
    ∀ e ∈ accumShares idF nameF data total acc, 0 ≤ e.2 := by
  rw [accumShares]
  refine foldl_preserve
    (fun m : List (String × ℚ) => ∀ e ∈ m, 0 ≤ e.2) _ ?_ _ _ hacc
  intro m pid hm
  dsimp only
  cases hrows : (data.filter (fun p => decide (idF p = some pid))).head? with
  | none => simpa [hrows] using hm
  | some p0 =>
    cases hn : nameF p0 with
    | none => simpa [hrows, hn] using hm
    | some nm =>
      simp only [hrows, hn]
      exact addTo_nonneg _ _ _ hm
        (div_nonneg (Nat.cast_nonneg _) (Nat.cast_nonneg _))

/-! ### Example inputs (two distinct rushers sharing one display name) -/

def pA : Play :=
  { posteam := some "A", yardline_100 := some 5, rush := true, pass := false,
    two_point_attempt := false, touchdown := true, game_id := some "G1",
    fixed_drive := some 1,
    rusher_player_id := some "00-0000001", rusher_player_name := some "J.Smith",
    receiver_player_id := none, receiver_player_name := none }

def pB : Play := { pA with rusher_player_id := some "00-0000002" }

theorem td_share_AB_eval :
    get_player_td_share "A" [pA, pB] = [("J.Smith", 1)] := by
  simp [get_player_td_share, tdData, accumShares, uniq, uniqAux, addTo, pA, pB]
  norm_num

/-! ### Claim theorems (app.py side) -/

/-- C1: the claim says shares keyed by player id are never merged for two
distinct ids sharing a display name, and that each id resolves to its most
recently observed name.  The code counts by id but then accumulates the
output dictionary by display name (`usage_shares[player_name] += share`),
using the first observed name, so two distinct rusher ids named
"J.Smith" collapse into one entry with the summed share — contradicting
the claim and the source's own stated methodology ("Uses player IDs to
avoid name collisions"). -/
theorem td_share_merges_distinct_ids_same_name :
    pA.rusher_player_id ≠ pB.rusher_player_id ∧
    pA.rusher_player_name = pB.rusher_player_name ∧
    get_player_td_share "A" [pA, pB] = [("J.Smith", 1)] :=
  ⟨by decide, by decide, td_share_AB_eval⟩

/-- C2: a play is in the red-zone usage working set (numerator rows and
denominator `total_rz_plays` alike, both computed from `rzFiltered` in
`get_player_rz_usage_share`) iff it is a play of the team, inside the
20, a rush or pass, not a two-point attempt, has non-null game and drive
ids, and its (game, drive) group holds at least two such qualifying
plays. -/
theorem rz_working_set_membership (team : String) (plays : List Play) (p : Play) :
    p ∈ rzFiltered team plays ↔
      p ∈ plays ∧ p.posteam = some team ∧
      (∃ y, p.yardline_100 = some y ∧ y ≤ 20) ∧
      (p.rush = true ∨ p.pass = true) ∧ p.two_point_attempt = false ∧
      ∃ g d, p.game_id = some g ∧ p.fixed_drive = some d ∧
        2 ≤ ((rzFilter team plays).filter (fun q =>
              decide (q.game_id = some g) && decide (q.fixed_drive = some d))).length := by
  rw [rzFiltered, mem_rzConcat]
  rw [rzFilter, List.mem_filter, rzQualifies_iff]
  tauto

/-- C5: touchdown shares are computed from the team's full-season
touchdown plays: the touchdown working set is exactly the plays with the
team on offense and a touchdown, with no yardage or drive-size
restriction, and `get_player_td_share` depends on nothing outside that
set. -/
theorem td_share_full_season (team : String) (plays : List Play) :
    (∀ p, p ∈ tdData team plays ↔
        p ∈ plays ∧ p.posteam = some team ∧ p.touchdown = true) ∧
    get_player_td_share team plays = get_player_td_share team (tdData team plays) := by
  constructor
  · intro p
    rw [tdData, List.mem_filter]
    simp [and_assoc]
  · have h : tdData team (tdData team plays) = tdData team plays := by
      rw [tdData, tdData, List.filter_filter]
      exact List.filter_congr (fun a _ => Bool.and_self _)
    simp only [get_player_td_share, h]

/-- C9: every computed share value — red-zone usage share or touchdown
share, before rounding and after the 4-decimal output rounding — is
non-negative (and, as a rational, finite). -/
theorem share_values_nonneg (team : String) (plays : List Play)
    (nm : String) (v : ℚ) :
    ((nm, v) ∈ get_player_rz_usage_share team plays →
       0 ≤ v ∧ 0 ≤ roundTo 4 v) ∧
    ((nm, v) ∈ get_player_td_share team plays →
       0 ≤ v ∧ 0 ≤ roundTo 4 v) := by
  constructor
  · intro h
    simp only [get_player_rz_usage_share] at h
    split at h
    · simp at h
    · split at h
      · simp at h
      · have h0 : ∀ e ∈ ([] : List (String × ℚ)), 0 ≤ e.2 := by simp
        have hv := accumShares_nonneg _ _ _ _ _
          (accumShares_nonneg _ _ _ _ _ h0) (nm, v) h
        exact ⟨hv, roundTo_nonneg _ _ hv⟩
  · intro h
    simp only [get_player_td_share] at h
    split at h
    · simp at h
    · have h0 : ∀ e ∈ ([] : List (String × ℚ)), 0 ≤ e.2 := by simp
      have hv := accumShares_nonneg _ _ _ _ _
        (accumShares_nonneg _ _ _ _ _ h0) (nm, v) h
      exact ⟨hv, roundTo_nonneg _ _ hv⟩

/-! ### Team projection blending (`src/main.py`) -/

/-- The constant edge weight of `get_week_parameters`. -/
def w_edge : ℚ := 25 / 100

/-- The field-goal discount of `get_vegas_team_totals`. -/
def fg_penalty : ℚ := 75 / 100

/-- Implied (home, away) points from the game total and home spread
(`get_vegas_team_totals`): home favored when the home spread is
negative. -/
def impliedPoints (game_total home_spread : ℚ) : ℚ × ℚ :=
  if home_spread < 0 then
    ((game_total - home_spread) / 2, (game_total + home_spread) / 2)
  else
    ((game_total + home_spread) / 2, (game_total - home_spread) / 2)

/-- A side's Vegas touchdown baseline: discounted implied points over 7,
rounded to two decimals (`round(td_points / 7, 2)`). -/
def vegasTds (implied : ℚ) : ℚ := roundTo 2 (implied * fg_penalty / 7)

/-- The ±30% cap applied to an advantage decimal in `get_team_analysis`. -/
def clampAdvantage (x : ℚ) : ℚ := max (-(30 / 100)) (min (30 / 100) x)

/-- The blending formula of `get_team_analysis`:
`vegas_tds * (1 + w_edge * advantage_pct)` with the raw percentage
divided by 100 and capped. -/
def projectedTds (vegas_tds advantage_raw : ℚ) : ℚ :=
  vegas_tds * (1 + w_edge * clampAdvantage (advantage_raw / 100))

/-! ### Matchup advantage model (`calculate_matchup_boosts`) -/

/-- Current-season rates available for one (offense, defense) pairing:
`None` when the team is missing from the corresponding 2025 stats map. -/
structure TeamRatesIn where
  off_rz_rate : Option ℚ
  def_rz_allow_rate : Option ℚ
  off_all_rate : Option ℚ
  def_all_allow_rate : Option ℚ
deriving DecidableEq

structure LeagueAverages where
  rz_scoring : ℚ
  rz_allow : ℚ
  all_drives_scoring : ℚ
  all_drives_allow : ℚ
deriving DecidableEq

/-- The hardcoded 2024 league averages of `TeamAnalysisService`. -/
def league_averages_2024 : LeagueAverages :=
  { rz_scoring := 59, rz_allow := 59,
    all_drives_scoring := 233 / 10, all_drives_allow := 233 / 10 }

/-- One percentage-change comparison: `(current - avg) / avg * 100` when
the average is positive, else 0, rounded to one decimal. -/
def pctChange (current baseline : ℚ) : ℚ :=
  roundTo 1 (if 0 < baseline then (current - baseline) / baseline * 100 else 0)

/-- The analysis record built by `calculate_matchup_boosts`: the four
percentage changes and the combined scores. -/
structure MatchupAnalysis where
  off_rz_pct : Option ℚ
  def_rz_pct : Option ℚ
  off_all_pct : Option ℚ
  def_all_pct : Option ℚ
  offense_combined : Option ℚ
  defense_combined : Option ℚ
  total_advantage : Option ℚ
deriving DecidableEq

/-- The combined-score fallback chain for one side (both present: rounded
mean; one present: that one; neither: null). -/
def combinePair (x y : Option ℚ) : Option ℚ :=
  match x, y with
  | some a, some b => some (roundTo 1 ((a + b) / 2))
  | some a, none => some a
  | none, some b => some b
  | none, none => none

/-- The total-advantage fallback chain (both: rounded mean; one: that
side halved and rounded; neither: null). -/
def totalPair (x y : Option ℚ) : Option ℚ :=
  match x, y with
  | some a, some b => some (roundTo 1 ((a + b) / 2))
  | some a, none => some (roundTo 1 (a / 2))
  | none, some b => some (roundTo 1 (b / 2))
  | none, none => none

/-- `calculate_matchup_boosts` of `src/main.py` (numeric core): builds
the four percentage changes against the league averages, the combined
offense and defense scores, and the total team advantage. -/
def calculate_matchup_boosts (stats : TeamRatesIn) (lg : LeagueAverages) :
    MatchupAnalysis :=
  let orz := stats.off_rz_rate.map (fun c => pctChange c lg.rz_scoring)
  let drz := stats.def_rz_allow_rate.map (fun c => pctChange c lg.rz_allow)
  let oall := stats.off_all_rate.map (fun c => pctChange c lg.all_drives_scoring)
  let dall := stats.def_all_allow_rate.map (fun c => pctChange c lg.all_drives_allow)
  let offC := combinePair orz oall
  let defC := combinePair drz dall
  { off_rz_pct := orz, def_rz_pct := drz, off_all_pct := oall,
    def_all_pct := dall, offense_combined := offC, defense_combined := defC,
    total_advantage := totalPair offC defC }

/-! ### Combining Vegas totals with advantages (`get_team_analysis`) -/

/-- One `vegas_totals` entry. -/
structure VegasGame where
  home_team : String
  away_team : String
  home_vegas_tds : ℚ
  away_vegas_tds : ℚ
  commence_time : String
  bookmaker : String
deriving DecidableEq

/-- One combined output entry of `get_team_analysis` (the formatted
`calculation` strings are determined by the numeric fields kept here). -/
structure CombinedGame where
  game : String
  commence_time : String
  bookmaker : String
  away_team : String
  home_team : String
  away_vegas_tds : ℚ
  home_vegas_tds : ℚ
  away_td_advantage_pct : ℚ
  home_td_advantage_pct : ℚ
  away_projected_tds : ℚ
  home_projected_tds : ℚ
deriving DecidableEq

/-- The per-game combination step of `get_team_analysis`: a missing or
null `total_team_td_advantage_pct` on either side is replaced by 0
(`.get(..., 0)` then `if ... is None: ... = 0`), then the advantage is
capped and blended. -/
def combineGame (vg : VegasGame) (awayAdv homeAdv : Option ℚ) : CombinedGame :=
  let away_raw := awayAdv.getD 0
  let home_raw := homeAdv.getD 0
  { game := vg.away_team ++ " @ " ++ vg.home_team,
    commence_time := vg.commence_time, bookmaker := vg.bookmaker,
    away_team := vg.away_team, home_team := vg.home_team,
    away_vegas_tds := vg.away_vegas_tds, home_vegas_tds := vg.home_vegas_tds,
    away_td_advantage_pct := roundTo 1 away_raw,
    home_td_advantage_pct := roundTo 1 home_raw,
    away_projected_tds := roundTo 2 (projectedTds vg.away_vegas_tds away_raw),
    home_projected_tds := roundTo 2 (projectedTds vg.home_vegas_tds home_raw) }

/-! ### Odds API processing (`get_vegas_team_totals`) -/

structure OddsOutcome where
  name : String
  point : ℚ
deriving DecidableEq

structure OddsMarket where
  key : String
  outcomes : List OddsOutcome
deriving DecidableEq

structure OddsBookmaker where
  key : String
  markets : List OddsMarket
deriving DecidableEq

structure OddsApiGame where
  home_team : String
  away_team : String
  commence_time : String
  bookmakers : List OddsBookmaker
deriving DecidableEq

/-- The bookmaker priority order of `TeamAnalysisService`. -/
def book_priority : List String :=
  ["fanduel", "draftkings", "betmgm", "caesars", "betrivers"]

/-- The full-name-to-abbreviation table of `TeamAnalysisService`. -/
def team_mapping : List (String × String) :=
  [("Arizona Cardinals", "ARI"), ("Atlanta Falcons", "ATL"),
   ("Baltimore Ravens", "BAL"), ("Buffalo Bills", "BUF"),
   ("Carolina Panthers", "CAR"), ("Chicago Bears", "CHI"),
   ("Cincinnati Bengals", "CIN"), ("Cleveland Browns", "CLE"),
   ("Dallas Cowboys", "DAL"), ("Denver Broncos", "DEN"),
   ("Detroit Lions", "DET"), ("Green Bay Packers", "GB"),
   ("Houston Texans", "HOU"), ("Indianapolis Colts", "IND"),
   ("Jacksonville Jaguars", "JAX"), ("Kansas City Chiefs", "KC"),
   ("Los Angeles Rams", "LAR"), ("Miami Dolphins", "MIA"),
   ("Minnesota Vikings", "MIN"), ("New England Patriots", "NE"),
   ("New Orleans Saints", "NO"), ("New York Giants", "NYG"),
   ("New York Jets", "NYJ"), ("Las Vegas Raiders", "LV"),
   ("Philadelphia Eagles", "PHI"), ("Pittsburgh Steelers", "PIT"),
   ("Los Angeles Chargers", "LAC"), ("San Francisco 49ers", "SF"),
   ("Seattle Seahawks", "SEA"), ("Tampa Bay Buccaneers", "TB"),
   ("Tennessee Titans", "TEN"), ("Washington Commanders", "WAS")]

/-- `self.team_mapping.get(name)`. -/
def mapTeam (name : String) : Option String :=
  (team_mapping.find? (fun e => decide (e.1 = name))).map (fun e => e.2)

/-- First bookmaker matching the priority order. -/
def selectBookmaker (books : List OddsBookmaker) : Option OddsBookmaker :=
  book_priority.findSome? (fun k => books.find? (fun b => decide (b.key = k)))

/-- The market-extraction loop: a later market with the same key
overwrites an earlier one. -/
def lastMarket (markets : List OddsMarket) (k : String) : Option OddsMarket :=
  markets.foldl (fun acc m => if m.key = k then some m else acc) none

/-- The game-total extraction: the first `Over` outcome's point, else the
first outcome's point; with no outcomes at all the source raises
(`outcomes[0]` on an empty list), modelled as an error. -/
def gameTotal (outcomes : List OddsOutcome) : Except Unit ℚ :=
  match outcomes.find? (fun o => decide (o.name = "Over")) with
  | some o => .ok o.point
  | none =>
    match outcomes.head? with
    | some o => .ok o.point
    | none => .error ()

/-- The spread-extraction loop for one team name: a later matching
outcome overwrites an earlier one. -/
def lastSpread (outcomes : List OddsOutcome) (team : String) : Option ℚ :=
  outcomes.foldl (fun acc o => if o.name = team then some o.point else acc) none

/-- One iteration of the `get_vegas_team_totals` game loop: `.ok none`
models a `continue` (unmapped team, game outside the expected set,
no priority bookmaker, missing totals or spreads market, unusable
spread values); the error propagates the raise on an empty totals
outcome list. -/
def processGame (expected : List String) (g : OddsApiGame) :
    Except Unit (Option (String × VegasGame)) :=
  match mapTeam g.home_team, mapTeam g.away_team with
  | some home_abbr, some away_abbr =>
    let game_key := away_abbr ++ "@" ++ home_abbr
    if game_key ∈ expected then
      match selectBookmaker g.bookmakers with
      | some bk =>
        match lastMarket bk.markets "totals", lastMarket bk.markets "spreads" with
        | some totals, some spreads =>
          match gameTotal totals.outcomes with
          | .error e => .error e
          | .ok game_total =>
            match lastSpread spreads.outcomes g.home_team,
                lastSpread spreads.outcomes g.away_team with
            | some home_spread, some _ =>
              let pts := impliedPoints game_total home_spread
              .ok (some (game_key,
                { home_team := home_abbr, away_team := away_abbr,
                  home_vegas_tds := vegasTds pts.1,
                  away_vegas_tds := vegasTds pts.2,
                  commence_time := g.commence_time, bookmaker := bk.key }))
            | _, _ => .ok none
        | _, _ => .ok none
      | none => .ok none
    else .ok none
  | _, _ => .ok none

/-- Dict insertion for the `vegas_totals` result keyed by game key. -/
def insertEntry (m : List (String × VegasGame)) (kv : String × VegasGame) :
    List (String × VegasGame) :=
  if m.any (fun e => decide (e.1 = kv.1)) then
    m.map (fun e => if e.1 = kv.1 then kv else e)
  else
    m ++ [kv]

/-- `get_vegas_team_totals` of `src/main.py` (the per-game loop, given
the fetched odds payload and the expected current-week game keys): skips
unusable games, collects entries for the rest, and propagates the raise
from a totals market with no outcomes. -/
def get_vegas_team_totals (expected : List String)
    (games : List OddsApiGame) : Except Unit (List (String × VegasGame)) :=
  games.foldlM (fun acc g =>
    (processGame expected g).map (fun r =>
      match r with
      | some kv => insertEntry acc kv
      | none => acc)) []

/-! ### Week matchup ordering (`analyze_week_matchups`) -/

/-- The two per-side total advantages of one analyzed game, `none` when
the key is missing or the stored value is null. -/
structure GameAdvantages where
  away_total_advantage : Option ℚ
  home_total_advantage : Option ℚ
deriving DecidableEq

/-- The Python expression `adv or -999` applied to a
`.get(..., -999)` lookup: a missing key, a null value, and a zero value
(falsy) all become the sentinel. -/
def advOrSentinel : Option ℚ → ℚ
  | none => -999
  | some v => if v = 0 then -999 else v

/-- The `get_sort_key` of `analyze_week_matchups`. -/
def sortKey (g : GameAdvantages) : ℚ :=
  max (advOrSentinel g.away_total_advantage)
    (advOrSentinel g.home_total_advantage)

/-- Stable insertion keeping earlier games first among equal keys. -/
def insertByKeyDesc (x : GameAdvantages) :
    List GameAdvantages → List GameAdvantages
  | [] => [x]
  | y :: ys =>
    if sortKey y ≤ sortKey x then x :: y :: ys else y :: insertByKeyDesc x ys

/-- The final sorting stage of `analyze_week_matchups`:
`games.sort(key=get_sort_key, reverse=True)`, a stable descending sort
(the output of a stable sort is unique, so this insertion sort agrees
with the source runtime's sort). -/
def analyze_week_matchups_sort (gs : List GameAdvantages) :
    List GameAdvantages :=
  gs.foldr insertByKeyDesc []

/-! ### Player odds allocation (spec §4.5; absent from `src/`) -/

/-- Modelled from the spec: the allocation weight `alpha` of the
PlayerOddsAllocator, which has no implementation under `src/`
(spec §4.5, "e.g. 0.85"). -/
def allocAlpha : ℚ := 85 / 100

/-- Modelled from the spec: the minimum-allocation floor `epsilon` of the
PlayerOddsAllocator (spec §4.5, "e.g. 0.01"). -/
def allocEpsilon : ℚ := 1 / 100

/-- Modelled from the spec: a listed player's raw allocation
`alpha * usage_share + (1 - alpha) * touchdown_share`, floored at
`epsilon`. -/
def rawAllocation (usage_share td_share : ℚ) : ℚ :=
  max allocEpsilon (allocAlpha * usage_share + (1 - allocAlpha) * td_share)

/-- Modelled from the spec: normalization of a team's raw allocations
across its listed players (player, usage share, td share). -/
def normalizeAllocations (players : List (String × ℚ × ℚ)) :
    List (String × ℚ) :=
  let raws := players.map (fun e => (e.1, rawAllocation e.2.1 e.2.2))
  let total := (raws.map (fun e => e.2)).sum
  raws.map (fun e => (e.1, e.2 / total))

/-- Witness for C9 at a concrete team and play list. -/
theorem share_values_nonneg_witness :
    (("J.Smith", (1 : ℚ)) ∈ get_player_td_share "A" [pA, pB]) ∧
      0 ≤ (1 : ℚ) ∧ 0 ≤ roundTo 4 (1 : ℚ) := by
  have hmem : ("J.Smith", (1 : ℚ)) ∈ get_player_td_share "A" [pA, pB] := by
    rw [td_share_AB_eval]
    exact List.mem_singleton.mpr rfl
  exact ⟨hmem, (share_values_nonneg "A" [pA, pB] "J.Smith" 1).2 hmem⟩

/-! ### Supporting lemmas and example inputs (main.py side) -/

theorem combinePair_cases (x y : Option ℚ) (a b : ℚ) :
    (x = some a → y = some b →
      combinePair x y = some (roundTo 1 ((a + b) / 2))) ∧
    (x = some a → y = none → combinePair x y = some a) ∧
    (x = none → y = some b → combinePair x y = some b) ∧
    (x = none → y = none → combinePair x y = none) := by
  refine ⟨?_, ?_, ?_, ?_⟩ <;> rintro rfl rfl <;> rfl

def exRates : TeamRatesIn :=
  { off_rz_rate := some (59059 / 1000), def_rz_allow_rate := none,
    off_all_rate := some (233466 / 10000), def_all_allow_rate := none }

def exVegasGame : VegasGame :=
  { home_team := "BUF", away_team := "KC", home_vegas_tds := 287 / 100,
    away_vegas_tds := 217 / 100, commence_time := "t0", bookmaker := "fanduel" }

def exBadSpreads : OddsMarket :=
  { key := "spreads",
    outcomes := [{ name := "Buffalo Bills", point := -(13 / 2) }] }

def exBadBook : OddsBookmaker :=
  { key := "fanduel",
    markets := [{ key := "totals", outcomes := [] }, exBadSpreads] }

def exBadGame : OddsApiGame :=
  { home_team := "Buffalo Bills", away_team := "Kansas City Chiefs",
    commence_time := "t1", bookmakers := [exBadBook] }

def exGoodGame : OddsApiGame :=
  { home_team := "Denver Broncos", away_team := "Chicago Bears",
    commence_time := "t2",
    bookmakers := [{ key := "fanduel", markets :=
      [{ key := "totals", outcomes := [{ name := "Over", point := 47 }] },
       { key := "spreads", outcomes :=
         [{ name := "Denver Broncos", point := -(13 / 2) },
          { name := "Chicago Bears", point := 13 / 2 }] }] }] }

def exNoSpreadsBook : OddsBookmaker :=
  { key := "fanduel",
    markets := [{ key := "totals", outcomes := [{ name := "Over", point := 47 }] }] }

def exNoSpreadsGame : OddsApiGame :=
  { home_team := "Buffalo Bills", away_team := "Kansas City Chiefs",
    commence_time := "t3", bookmakers := [exNoSpreadsBook] }

def exExpected : List String := ["KC@BUF", "CHI@DEN"]

/-- A game whose selection and markets satisfy one of the skip
conditions yields `continue` (no entry, no raise). -/
theorem processGame_skip (expected : List String) (g : OddsApiGame)
    (bk : OddsBookmaker) (hbk : selectBookmaker g.bookmakers = some bk)
    (hcond : lastMarket bk.markets "totals" = none ∨
      lastMarket bk.markets "spreads" = none ∨
      (∃ t s, lastMarket bk.markets "totals" = some t ∧
        lastMarket bk.markets "spreads" = some s ∧
        (∃ v, gameTotal t.outcomes = .ok v) ∧
        (lastSpread s.outcomes g.home_team = none ∨
         lastSpread s.outcomes g.away_team = none))) :
    processGame expected g = .ok none := by
  rw [processGame]
  cases hh : mapTeam g.home_team with
  | none => rfl
  | some home_abbr =>
    cases ha : mapTeam g.away_team with
    | none => rfl
    | some away_abbr =>
      dsimp only
      by_cases hk : (away_abbr ++ "@" ++ home_abbr) ∈ expected
      · rw [if_pos hk, hbk]
        dsimp only
        rcases hcond with h1 | h2 | ⟨t, s, ht, hs, ⟨v, hv⟩, hsp⟩
        · rw [h1]
        · rw [h2]
          cases lastMarket bk.markets "totals" <;> rfl
        · rw [ht, hs]
          dsimp only
          rw [hv]
          dsimp only
          rcases hsp with hsp | hsp
          · rw [hsp]
          · rw [hsp]
            cases lastSpread s.outcomes g.home_team <;> rfl
      · rw [if_neg hk]

/-- A skipped game leaves the rest of the batch unchanged. -/
theorem foldlM_processGame_skip (expected : List String) (g : OddsApiGame)
    (h : processGame expected g = .ok none) (gs1 : List OddsApiGame) :
    ∀ (gs2 : List OddsApiGame) (acc : List (String × VegasGame)),
      List.foldlM (fun acc g =>
          (processGame expected g).map (fun r =>
            match r with
            | some kv => insertEntry acc kv
            | none => acc)) acc (gs1 ++ g :: gs2) =
        List.foldlM (fun acc g =>
          (processGame expected g).map (fun r =>
            match r with
            | some kv => insertEntry acc kv
            | none => acc)) acc (gs1 ++ gs2) := by
  induction gs1 with
  | nil =>
    intro gs2 acc
    simp only [List.nil_append, List.foldlM_cons, h, Except.map]
    rfl
  | cons x xs ih =>
    intro gs2 acc
    simp only [List.cons_append, List.foldlM_cons]
    cases hx : (processGame expected x).map (fun r =>
        match r with
        | some kv => insertEntry acc kv
        | none => acc) with
    | error e => rfl
    | ok a =>
      show Except.bind _ _ = Except.bind _ _
      rw [Except.bind, Except.bind]
      exact ih gs2 a

theorem mem_insertByKeyDesc (x b : GameAdvantages) (l : List GameAdvantages) :
    b ∈ insertByKeyDesc x l ↔ b = x ∨ b ∈ l := by
  induction l with
  | nil => simp [insertByKeyDesc]
  | cons y ys ih =>
    rw [insertByKeyDesc]
    by_cases h : sortKey y ≤ sortKey x
    · rw [if_pos h]
      simp [List.mem_cons]
    · rw [if_neg h]
      simp only [List.mem_cons, ih]
      tauto

theorem pairwise_insertByKeyDesc (x : GameAdvantages) (l : List GameAdvantages)
    (hl : l.Pairwise (fun a b => sortKey b ≤ sortKey a)) :
    (insertByKeyDesc x l).Pairwise (fun a b => sortKey b ≤ sortKey a) := by
  induction l with
  | nil => simp [insertByKeyDesc]
  | cons y ys ih =>
    rw [insertByKeyDesc]
    rcases List.pairwise_cons.mp hl with ⟨hy, hys⟩
    by_cases h : sortKey y ≤ sortKey x
    · rw [if_pos h]
      refine List.pairwise_cons.mpr ⟨?_, hl⟩
      intro b hb
      rcases List.mem_cons.mp hb with rfl | hb
      · exact h
      · exact le_trans (hy b hb) h
    · rw [if_neg h]
      refine List.pairwise_cons.mpr ⟨?_, ih hys⟩
      intro b hb
      rcases (mem_insertByKeyDesc x b ys).mp hb with rfl | hb
      · exact le_of_lt (lt_of_not_le h)
      · exact hy b hb

theorem perm_insertByKeyDesc (x : GameAdvantages) (l : List GameAdvantages) :
    (insertByKeyDesc x l).Perm (x :: l) := by
  induction l with
  | nil => exact List.Perm.refl _
  | cons y ys ih =>
    rw [insertByKeyDesc]
    by_cases h : sortKey y ≤ sortKey x
    · rw [if_pos h]
    · rw [if_neg h]
      exact (ih.cons y).trans (List.Perm.swap x y ys)

theorem map_snd_normalize (players : List (String × ℚ × ℚ)) :
    (normalizeAllocations players).map (fun e => e.2) =
      players.map (fun e => rawAllocation e.2.1 e.2.2 /
        (players.map (fun e => rawAllocation e.2.1 e.2.2)).sum) := by
  rw [normalizeAllocations]
  simp only [List.map_map]
  rfl

theorem sum_map_div (L : List ℚ) (t : ℚ) :
    (L.map (fun x => x / t)).sum = L.sum / t := by
  induction L with
  | nil => simp
  | cons x xs ih => simp [ih, div_add_div_same]

theorem sum_pos_of_floored (L : List ℚ) (hL : L ≠ [])
    (h : ∀ x ∈ L, allocEpsilon ≤ x) : 0 < L.sum := by
  cases L with
  | nil => exact absurd rfl hL
  | cons x xs =>
    rw [List.sum_cons]
    have hx : allocEpsilon ≤ x := h x (List.mem_cons_self _ _)
    have hxs : 0 ≤ xs.sum := List.sum_nonneg (fun y hy =>
      le_trans (by norm_num [allocEpsilon]) (h y (List.mem_cons_of_mem _ hy)))
    have he : (0 : ℚ) < allocEpsilon := by norm_num [allocEpsilon]
    linarith

def gZero : GameAdvantages :=
  { away_total_advantage := some 0, home_total_advantage := some 0 }

def gNeg : GameAdvantages :=
  { away_total_advantage := some (-5), home_total_advantage := some (-5) }

/-- The week-sort key exactly as claim C10 words it: the larger of the
two per-side advantages, with only an absent or null value replaced by
the −999 sentinel (a present zero keeps its value). -/
def claimSortKey (g : GameAdvantages) : ℚ :=
  max (g.away_total_advantage.getD (-999))
    (g.home_total_advantage.getD (-999))

/-! ### Claim theorems (main.py side) -/

/-- C3 (counterexample): at market total 47 and home spread −6.5 the
stored market-baseline touchdown count is the two-decimal rounding 2.87,
not the exact 26.75 × 0.75 / 7 = 2.86607… the claim states. -/
theorem vegas_baseline_rounding_counterexample :
    vegasTds ((impliedPoints 47 (-(13 / 2))).1) ≠
      (impliedPoints 47 (-(13 / 2))).1 * (75 / 100) / 7 := by
  norm_num [vegasTds, impliedPoints, fg_penalty, roundTo, roundHalfEven]

/-- C3 (amended): the implied-points split by spread sign as claimed;
home 26.75 / away 20.25 at total 47, spread −6.5; the market baseline is
implied points × 0.75 / 7 rounded to two decimals; the final projection
is that (rounded) baseline × (1 + 0.25 × the advantage divided by 100
and clamped to ±0.30); zero advantage reproduces the baseline. -/
theorem implied_points_and_projection (game_total home_spread adv : ℚ) :
    (home_spread < 0 →
      impliedPoints game_total home_spread =
        ((game_total - home_spread) / 2, (game_total + home_spread) / 2)) ∧
    (¬ home_spread < 0 →
      impliedPoints game_total home_spread =
        ((game_total + home_spread) / 2, (game_total - home_spread) / 2)) ∧
    impliedPoints 47 (-(13 / 2)) = (107 / 4, 81 / 4) ∧
    vegasTds ((impliedPoints game_total home_spread).1) =
      roundTo 2 ((impliedPoints game_total home_spread).1 * (75 / 100) / 7) ∧
    projectedTds (vegasTds ((impliedPoints game_total home_spread).1)) adv =
      vegasTds ((impliedPoints game_total home_spread).1) *
        (1 + (25 / 100) * max (-(30 / 100)) (min (30 / 100) (adv / 100))) ∧
    projectedTds (vegasTds ((impliedPoints game_total home_spread).1)) 0 =
      vegasTds ((impliedPoints game_total home_spread).1) := by
  refine ⟨fun h => by rw [impliedPoints, if_pos h],
    fun h => by rw [impliedPoints, if_neg h],
    by norm_num [impliedPoints], rfl, rfl, ?_⟩
  rw [projectedTds, clampAdvantage, w_edge]
  norm_num [min_def, max_def]

/-- Witness for C3 at total 47 with spreads −6.5 and 0. -/
theorem implied_points_and_projection_witness :
    ((-(13 / 2) : ℚ) < 0 ∧
      impliedPoints 47 (-(13 / 2)) =
        ((47 - -(13 / 2)) / 2, (47 + -(13 / 2)) / 2)) ∧
    (¬ ((0 : ℚ) < 0) ∧
      impliedPoints 47 0 = ((47 + 0) / 2, (47 - 0) / 2)) :=
  ⟨⟨by norm_num, (implied_points_and_projection 47 (-(13 / 2)) 0).1 (by norm_num)⟩,
   ⟨by norm_num, (implied_points_and_projection 47 0 0).2.1 (by norm_num)⟩⟩

/-- C4 (counterexample): with the 2024 league averages, an offense with
red-zone change 0.1% and all-drives change 0.2% gets a combined offense
score of 0.2 (the one-decimal rounding of 0.15), not the exact
arithmetic mean 0.15 the claim states. -/
theorem combined_offense_not_exact_mean :
    (calculate_matchup_boosts exRates league_averages_2024).off_rz_pct =
        some (1 / 10) ∧
    (calculate_matchup_boosts exRates league_averages_2024).off_all_pct =
        some (2 / 10) ∧
    (calculate_matchup_boosts exRates league_averages_2024).offense_combined ≠
        some ((1 / 10 + 2 / 10) / 2) := by
  norm_num [calculate_matchup_boosts, pctChange, league_averages_2024, exRates,
    combinePair, totalPair, roundTo, roundHalfEven]

/-- C4 (amended): combined offense score = the arithmetic mean of the two
offense percentage changes rounded to one decimal when both are present,
the single available one when only one is, null when neither is; the
combined defense score symmetrically; total advantage = the rounded mean
of the two combined scores, the rounded half of the only available one,
or null. -/
theorem matchup_combined_scores (stats : TeamRatesIn) (lg : LeagueAverages)
    (a b : ℚ) :
    ((calculate_matchup_boosts stats lg).off_rz_pct = some a →
      (calculate_matchup_boosts stats lg).off_all_pct = some b →
      (calculate_matchup_boosts stats lg).offense_combined =
        some (roundTo 1 ((a + b) / 2))) ∧
    ((calculate_matchup_boosts stats lg).off_rz_pct = some a →
      (calculate_matchup_boosts stats lg).off_all_pct = none →
      (calculate_matchup_boosts stats lg).offense_combined = some a) ∧
    ((calculate_matchup_boosts stats lg).off_rz_pct = none →
      (calculate_matchup_boosts stats lg).off_all_pct = some b →
      (calculate_matchup_boosts stats lg).offense_combined = some b) ∧
    ((calculate_matchup_boosts stats lg).off_rz_pct = none →
      (calculate_matchup_boosts stats lg).off_all_pct = none →
      (calculate_matchup_boosts stats lg).offense_combined = none) ∧
    ((calculate_matchup_boosts stats lg).def_rz_pct = some a →
      (calculate_matchup_boosts stats lg).def_all_pct = some b →
      (calculate_matchup_boosts stats lg).defense_combined =
        some (roundTo 1 ((a + b) / 2))) ∧
    ((calculate_matchup_boosts stats lg).def_rz_pct = some a →
      (calculate_matchup_boosts stats lg).def_all_pct = none →
      (calculate_matchup_boosts stats lg).defense_combined = some a) ∧
    ((calculate_matchup_boosts stats lg).def_rz_pct = none →
      (calculate_matchup_boosts stats lg).def_all_pct = some b →
      (calculate_matchup_boosts stats lg).defense_combined = some b) ∧
    ((calculate_matchup_boosts stats lg).def_rz_pct = none →
      (calculate_matchup_boosts stats lg).def_all_pct = none →
      (calculate_matchup_boosts stats lg).defense_combined = none) ∧
    ((calculate_matchup_boosts stats lg).offense_combined = some a →
      (calculate_matchup_boosts stats lg).defense_combined = some b →
      (calculate_matchup_boosts stats lg).total_advantage =
        some (roundTo 1 ((a + b) / 2))) ∧
    ((calculate_matchup_boosts stats lg).offense_combined = some a →
      (calculate_matchup_boosts stats lg).defense_combined = none →
      (calculate_matchup_boosts stats lg).total_advantage =
        some (roundTo 1 (a / 2))) ∧
    ((calculate_matchup_boosts stats lg).offense_combined = none →
      (calculate_matchup_boosts stats lg).defense_combined = some b →
      (calculate_matchup_boosts stats lg).total_advantage =
        some (roundTo 1 (b / 2))) ∧
    ((calculate_matchup_boosts stats lg).offense_combined = none →
      (calculate_matchup_boosts stats lg).defense_combined = none →
      (calculate_matchup_boosts stats lg).total_advantage = none) := by
  have hoc : (calculate_matchup_boosts stats lg).offense_combined =
      combinePair (calculate_matchup_boosts stats lg).off_rz_pct
        (calculate_matchup_boosts stats lg).off_all_pct := rfl
  have hdc : (calculate_matchup_boosts stats lg).defense_combined =
      combinePair (calculate_matchup_boosts stats lg).def_rz_pct
        (calculate_matchup_boosts stats lg).def_all_pct := rfl
  have htc : (calculate_matchup_boosts stats lg).total_advantage =
      totalPair (calculate_matchup_boosts stats lg).offense_combined
        (calculate_matchup_boosts stats lg).defense_combined := rfl
  refine ⟨fun h1 h2 => ?_, fun h1 h2 => ?_, fun h1 h2 => ?_, fun h1 h2 => ?_,
    fun h1 h2 => ?_, fun h1 h2 => ?_, fun h1 h2 => ?_, fun h1 h2 => ?_,
    fun h1 h2 => ?_, fun h1 h2 => ?_, fun h1 h2 => ?_, fun h1 h2 => ?_⟩
  · rw [hoc, h1, h2]; rfl
  · rw [hoc, h1, h2]; rfl
  · rw [hoc, h1, h2]; rfl
  · rw [hoc, h1, h2]; rfl
  · rw [hdc, h1, h2]; rfl
  · rw [hdc, h1, h2]; rfl
  · rw [hdc, h1, h2]; rfl
  · rw [hdc, h1, h2]; rfl
  · rw [htc, h1, h2]; rfl
  · rw [htc, h1, h2]; rfl
  · rw [htc, h1, h2]; rfl
  · rw [htc, h1, h2]; rfl

/-- Witness for C4 at the concrete rates 59.059 and 23.3466. -/
theorem matchup_combined_scores_witness :
    ((calculate_matchup_boosts exRates league_averages_2024).off_rz_pct =
        some (1 / 10) ∧
      (calculate_matchup_boosts exRates league_averages_2024).off_all_pct =
        some (2 / 10)) ∧
    (calculate_matchup_boosts exRates league_averages_2024).offense_combined =
      some (roundTo 1 ((1 / 10 + 2 / 10) / 2)) := by
  have h1 : (calculate_matchup_boosts exRates league_averages_2024).off_rz_pct =
      some (1 / 10) := by
    norm_num [calculate_matchup_boosts, pctChange, league_averages_2024,
      exRates, roundTo, roundHalfEven]
  have h2 : (calculate_matchup_boosts exRates league_averages_2024).off_all_pct =
      some (2 / 10) := by
    norm_num [calculate_matchup_boosts, pctChange, league_averages_2024,
      exRates, roundTo, roundHalfEven]
  exact ⟨⟨h1, h2⟩,
    (matchup_combined_scores exRates league_averages_2024 (1 / 10) (2 / 10)).1 h1 h2⟩

/-- C6 (spec-modelled): with the floored raw allocations of §4.5, any
team with at least one listed player of non-zero raw allocation gets
normalized weights summing to exactly 1. -/
theorem normalized_allocations_sum_to_one (players : List (String × ℚ × ℚ))
    (h : ∃ p ∈ players, rawAllocation p.2.1 p.2.2 ≠ 0) :
    ((normalizeAllocations players).map (fun e => e.2)).sum = 1 := by
  obtain ⟨p, hp, -⟩ := h
  have hne : players ≠ [] := by
    rintro rfl
    simp at hp
  have hfloor : ∀ x ∈ players.map (fun e => rawAllocation e.2.1 e.2.2),
      allocEpsilon ≤ x := by
    intro x hx
    rcases List.mem_map.mp hx with ⟨e, -, rfl⟩
    exact le_max_left _ _
  have hLne : players.map (fun e => rawAllocation e.2.1 e.2.2) ≠ [] := by
    intro hemp
    exact hne (List.map_eq_nil_iff.mp hemp)
  have hpos := sum_pos_of_floored _ hLne hfloor
  rw [map_snd_normalize]
  have hrw : players.map (fun e => rawAllocation e.2.1 e.2.2 /
        (players.map (fun e => rawAllocation e.2.1 e.2.2)).sum) =
      (players.map (fun e => rawAllocation e.2.1 e.2.2)).map
        (fun x => x / (players.map (fun e => rawAllocation e.2.1 e.2.2)).sum) := by
    rw [List.map_map]
    rfl
  rw [hrw, sum_map_div]
  exact div_self (ne_of_gt hpos)

/-- Witness for C6 at a one-player team with usage share 1/2. -/
theorem normalized_allocations_sum_to_one_witness :
    (∃ p ∈ [("A", ((1 : ℚ) / 2, (0 : ℚ)))], rawAllocation p.2.1 p.2.2 ≠ 0) ∧
    ((normalizeAllocations [("A", ((1 : ℚ) / 2, (0 : ℚ)))]).map
      (fun e => e.2)).sum = 1 := by
  have h : ∃ p ∈ [("A", ((1 : ℚ) / 2, (0 : ℚ)))],
      rawAllocation p.2.1 p.2.2 ≠ 0 := by
    refine ⟨("A", ((1 : ℚ) / 2, (0 : ℚ))), List.mem_singleton.mpr rfl, ?_⟩
    exact ne_of_gt (lt_of_lt_of_le (by norm_num [allocEpsilon]) (le_max_left _ _))
  exact ⟨h, normalized_allocations_sum_to_one _ h⟩

/-- C7 (counterexample): a game whose away-side total advantage is
absent produces exactly the same output entry as one whose advantage is
present and zero — the absence is replaced by 0 with no marker. -/
theorem missing_advantage_indistinguishable_from_zero :
    combineGame exVegasGame none (some 5) =
      combineGame exVegasGame (some 0) (some 5) ∧
    (combineGame exVegasGame none (some 5)).away_td_advantage_pct = 0 :=
  ⟨rfl, by norm_num [combineGame, roundTo, roundHalfEven]⟩

/-- C7 (amended): an absent total matchup advantage on either side is
silently replaced by zero in `get_team_analysis`: the emitted entry is
identical to the zero-advantage entry, with no marker of the absence. -/
theorem missing_advantage_silently_zeroed (vg : VegasGame) (x : Option ℚ) :
    combineGame vg none x = combineGame vg (some 0) x ∧
    combineGame vg x none = combineGame vg x (some 0) :=
  ⟨rfl, rfl⟩

/-- C8 (counterexample): the bad game lacks a usable away spread, so the
claim says it is skipped while the remaining games continue; but its
totals market has an empty outcomes list, so the source raises at
`outcomes[0]` before reaching the spread check and the whole batch
aborts — the good game (projectable on its own, last conjunct) produces
no entry. -/
theorem empty_totals_outcomes_abort_batch :
    (∃ m, lastMarket exBadBook.markets "spreads" = some m ∧
        lastSpread m.outcomes exBadGame.away_team = none) ∧
    get_vegas_team_totals exExpected [exBadGame, exGoodGame] = .error () ∧
    get_vegas_team_totals exExpected [exGoodGame] =
      .ok [("CHI@DEN",
        { home_team := "DEN", away_team := "CHI", home_vegas_tds := 287 / 100,
          away_vegas_tds := 217 / 100, commence_time := "t2",
          bookmaker := "fanduel" })] := by
  refine ⟨⟨exBadSpreads,
      by simp [lastMarket, exBadBook, exBadSpreads],
      by simp [lastSpread, exBadGame, exBadSpreads]⟩, ?_, ?_⟩
  · simp [get_vegas_team_totals, processGame, mapTeam, team_mapping,
      selectBookmaker, book_priority, lastMarket, lastSpread, gameTotal,
      exBadGame, exGoodGame, exBadBook, exBadSpreads, exExpected, insertEntry,
      List.foldlM, Except.map, List.find?, List.findSome?]
    rfl
  · simp [get_vegas_team_totals, processGame, mapTeam, team_mapping,
      selectBookmaker, book_priority, lastMarket, lastSpread, gameTotal,
      exGoodGame, exExpected, insertEntry, List.foldlM, Except.map,
      List.find?, List.findSome?, impliedPoints, vegasTds, fg_penalty,
      roundTo, roundHalfEven]
    norm_num [Int.fract]

/-- C8 (amended): a scheduled current-week game whose selected bookmaker
lacks a totals market, lacks a spreads market, or — with both markets
present and a readable game total — lacks usable home/away spread
values, is excluded from the projection output entirely, and the
projection of the remaining games is unchanged.  (A present totals
market with an empty outcomes list instead raises and aborts the whole
batch, per the counterexample.) -/
theorem unusable_market_game_skipped (expected : List String)
    (g : OddsApiGame) (bk : OddsBookmaker)
    (hbk : selectBookmaker g.bookmakers = some bk)
    (hcond : lastMarket bk.markets "totals" = none ∨
      lastMarket bk.markets "spreads" = none ∨
      (∃ t s, lastMarket bk.markets "totals" = some t ∧
        lastMarket bk.markets "spreads" = some s ∧
        (∃ v, gameTotal t.outcomes = .ok v) ∧
        (lastSpread s.outcomes g.home_team = none ∨
         lastSpread s.outcomes g.away_team = none))) :
    processGame expected g = .ok none ∧
    ∀ gs1 gs2, get_vegas_team_totals expected (gs1 ++ g :: gs2) =
      get_vegas_team_totals expected (gs1 ++ gs2) := by
  have h := processGame_skip expected g bk hbk hcond
  exact ⟨h, fun gs1 gs2 => foldlM_processGame_skip expected g h gs1 gs2 []⟩

/-- Witness for C8 at a game whose bookmaker offers no spreads market. -/
theorem unusable_market_game_skipped_witness :
    (selectBookmaker exNoSpreadsGame.bookmakers = some exNoSpreadsBook ∧
      lastMarket exNoSpreadsBook.markets "spreads" = none) ∧
    (processGame exExpected exNoSpreadsGame = .ok none ∧
      get_vegas_team_totals exExpected ([exGoodGame] ++ exNoSpreadsGame :: []) =
        get_vegas_team_totals exExpected ([exGoodGame] ++ [])) := by
  have hbk : selectBookmaker exNoSpreadsGame.bookmakers = some exNoSpreadsBook := by
    simp [selectBookmaker, book_priority, exNoSpreadsGame, exNoSpreadsBook,
      List.find?, List.findSome?]
  have hc : lastMarket exNoSpreadsBook.markets "spreads" = none := by
    simp [lastMarket, exNoSpreadsBook]
  have h := unusable_market_game_skipped exExpected exNoSpreadsGame
    exNoSpreadsBook hbk (Or.inr (Or.inl hc))
  exact ⟨⟨hbk, hc⟩, ⟨h.1, h.2 [exGoodGame] []⟩⟩

/-- C10 (counterexample): the sorted output is not descending in the
claim's key — a game with two present zero advantages has claim key 0
but the code's `adv or -999` treats the zero as falsy, so it sorts below
a game with advantages −5. -/
theorem zero_advantage_sorts_as_sentinel :
    analyze_week_matchups_sort [gZero, gNeg] = [gNeg, gZero] ∧
    claimSortKey gZero = 0 ∧ claimSortKey gNeg = -5 ∧
    ¬ (analyze_week_matchups_sort [gZero, gNeg]).Pairwise
        (fun a b => claimSortKey b ≤ claimSortKey a) := by
  have h1 : analyze_week_matchups_sort [gZero, gNeg] = [gNeg, gZero] := by
    norm_num [analyze_week_matchups_sort, insertByKeyDesc, sortKey,
      advOrSentinel, gZero, gNeg]
  refine ⟨h1, by norm_num [claimSortKey, gZero, gNeg],
    by norm_num [claimSortKey, gZero, gNeg], ?_⟩
  rw [h1]
  intro hpw
  have := (List.pairwise_cons.mp hpw).1 gZero (List.mem_singleton.mpr rfl)
  norm_num [claimSortKey, gZero, gNeg] at this

/-- C10 (amended): the analyzed games are returned sorted (stably) in
descending order of `max` of the two per-side advantages, where an
absent, null, or zero advantage is treated as −999; the output is a
permutation of the input games. -/
theorem week_games_sorted_by_advantage (gs : List GameAdvantages) :
    (analyze_week_matchups_sort gs).Pairwise
        (fun a b => sortKey b ≤ sortKey a) ∧
    (analyze_week_matchups_sort gs).Perm gs := by
  rw [analyze_week_matchups_sort]
  induction gs with
  | nil => exact ⟨List.Pairwise.nil, List.Perm.refl _⟩
  | cons x xs ih =>
    rw [List.foldr_cons]
    exact ⟨pairwise_insertByKeyDesc _ _ ih.1,
      (perm_insertByKeyDesc _ _).trans (ih.2.cons x)⟩

end NflTd
